import Mathlib

/-!
Shallow embedding of the tiered object-storage layer of `rust-logi`
(files service, storage backends, cold-tier restore classification,
access-driven promotion, chunked download streaming), together with
proofs about the embedded operations.

Source files embedded here:
- `src/storage/mod.rs` (`parse_restore_status`, `request_restore` error mapping)
- `src/services/files_service.rs` (`generate_gcs_key`,
  `record_access_and_maybe_promote`, `create_file`, `list_files`,
  `download_file`, `delete_file`, `restore_file`)
-/

namespace RustLogi

/-- Model of `RestoreStatus` from `src/storage/mod.rs`. -/
inductive RestoreStatus where
  | NotNeeded
  | InProgress
  | Completed
  | Required
deriving DecidableEq, Repr

/-- Model of `AppError` from `src/error.rs` (payload strings kept, AWS build error collapsed
to its message). -/
inductive AppError where
  | Database (msg : String)
  | NotFound (msg : String)
  | InvalidInput (msg : String)
  | Internal (msg : String)
  | Storage (msg : String)
  | RestoreInProgress
  | RestoreRequired
  | AwsSdk (msg : String)
deriving DecidableEq, Repr

/-- gRPC `Status` values produced by the files service (`tonic::Status` codes used
in `files_service.rs` and `error.rs`). -/
inductive GrpcStatus where
  | internal (msg : String)
  | notFound (msg : String)
  | invalidArgument (msg : String)
  | failedPrecondition (msg : String)
  | unavailable (msg : String)
deriving DecidableEq, Repr

/-- Is `pat` a (char-by-char) prefix of `s`?  Executable model of a prefix test. -/
def prefixAt : List Char → List Char → Bool
  | [], _ => true
  | _ :: _, [] => false
  | p :: ps, c :: cs => p == c && prefixAt ps cs

/-- Does `s` contain `pat` as a contiguous substring?  Model of Rust
`str::contains` on the character level. -/
def listContains (pat : List Char) : List Char → Bool
  | [] => pat.isEmpty
  | c :: cs => prefixAt pat (c :: cs) || listContains pat cs

/-- Rust `s.contains(pat)` on `String`s. -/
def strContains (s pat : String) : Bool :=
  listContains pat.toList s.toList

/-- The archival storage classes matched by `parse_restore_status`
(`src/storage/mod.rs:187-190`): `matches!(storage_class.as_deref(),
Some("GLACIER") | Some("DEEP_ARCHIVE") | Some("GLACIER_IR"))`. -/
def archivalClasses : List String := ["GLACIER", "DEEP_ARCHIVE", "GLACIER_IR"]

/-- The `needs_restore` test of `parse_restore_status`. -/
def isArchivalClass (storage_class : Option String) : Bool :=
  match storage_class with
  | some s => archivalClasses.contains s
  | none => false

/-- The `x-amz-restore` marker fragment meaning a restore is ongoing. -/
def ongoingTrueMarker : String := "ongoing-request=\"true\""

/-- The `x-amz-restore` marker fragment meaning a restore has finished. -/
def ongoingFalseMarker : String := "ongoing-request=\"false\""

/-- Model of `S3Client::parse_restore_status` (`src/storage/mod.rs:181-210`): non-archival
classes need no restore; otherwise the `x-amz-restore` header decides between
`Required` (absent or unrecognized), `InProgress` (`ongoing-request="true"`),
and `Completed` (`ongoing-request="false"`). -/
def parse_restore_status (storage_class : Option String)
    (restore_header : Option String) : RestoreStatus :=
  if !(isArchivalClass storage_class) then
    RestoreStatus.NotNeeded
  else
    match restore_header with
    | none => RestoreStatus.Required
    | some header =>
      if strContains header ongoingTrueMarker then RestoreStatus.InProgress
      else if strContains header ongoingFalseMarker then RestoreStatus.Completed
      else RestoreStatus.Required

/-- The error mapping inside `S3Client::request_restore`
(`src/storage/mod.rs:141-149`): an error whose rendering contains
`RestoreAlreadyInProgress` becomes `AppError::RestoreInProgress`, any other
error becomes `AppError::Storage`. -/
def mapRestoreSendError (errStr : String) : AppError :=
  if strContains errStr "RestoreAlreadyInProgress" then
    AppError.RestoreInProgress
  else
    AppError.Storage ("S3 restore request failed: " ++ errStr)

/-- Model of `S3Client::request_restore` (`src/storage/mod.rs:125-159`), with the backend
`restore_object` call's outcome supplied as `sendResult` (the rendered SDK error
string on failure).  The `map_err(..)?` in the source propagates the mapped
error to the caller. -/
def request_restore (sendResult : Except String Unit) : Except AppError Unit :=
  match sendResult with
  | Except.ok _ => Except.ok ()
  | Except.error e => Except.error (mapRestoreSendError e)

/-- Model of `FilesServiceImpl::generate_gcs_key` (`src/services/files_service.rs:45-47`):
`format!("{}/{}", organization_id, uuid)`. -/
def generate_gcs_key (organization_id : String) (uuid : String) : String :=
  organization_id ++ "/" ++ uuid

/-- Model of the proto `FileChunk` message streamed by `download_file`.  Bytes are
modelled as `Nat`s; `offset` and `total_size` are the `i64` fields (the source
values are bounded by the in-memory buffer length, far below `2^63`, so plain
`Int` is a faithful model). -/
structure FileChunk where
  data : List Nat
  offset : Int
  total_size : Int
deriving DecidableEq, Repr

/-- The fixed chunk size of the download streamer
(`files_service.rs:450,487`): `64 * 1024` bytes. -/
def chunkSize : Nat := 64 * 1024

/-- Structurally recursive worker for `chunksExact`.  The `fuel` argument is an
upper bound on the number of chunks still to produce (any `fuel ≥ l.length`
gives the same result, see `chunksFuel_fuel_irrel`); it only makes the
recursion structural so that concrete inputs evaluate by kernel reduction. -/
def chunksFuel : Nat → List Nat → List (List Nat)
  | _, [] => []
  | 0, _ :: _ => []
  | fuel + 1, a :: l => ((a :: l).take chunkSize) :: chunksFuel fuel ((a :: l).drop chunkSize)

/-- Model of Rust `slice::chunks(chunkSize)`: split a buffer into consecutive
pieces of `chunkSize` elements, the last piece possibly shorter; an empty
buffer yields no pieces. -/
def chunksExact (l : List Nat) : List (List Nat) :=
  chunksFuel l.length l

/-- The frame-emission loop of `download_file` (`files_service.rs:461-474` and
`489-502`): walk the chunk list keeping a running `offset`, wrapping each chunk
as a `FileChunk` carrying the fixed `total_size`, and advancing the offset by
the chunk's length. -/
def emit_chunks (total_size : Int) : List (List Nat) → Int → List FileChunk
  | [], _ => []
  | c :: cs, offset =>
    { data := c, offset := offset, total_size := total_size } ::
      emit_chunks total_size cs (offset + (c.length : Int))

/-- The full chunked-streaming stage shared by the remote and the inline branch
of `download_file`: `total_size = data.len()`, offsets start at `0`. -/
def downloadChunks (data : List Nat) : List FileChunk :=
  emit_chunks (data.length : Int) (chunksExact data) 0

/-- Model of `S3ObjectInfo` / backend `ObjectInfo` as consumed by the files
service: storage class, classified restore status, content type and size. -/
structure ObjectInfo where
  storage_class : Option String
  restore_status : RestoreStatus
  content_type : Option String
  size : Option Int
deriving DecidableEq, Repr

/-- Backend operations the service layer can invoke on a `StorageBackend`. -/
inductive StorageCall where
  | GetObjectInfo
  | DownloadCall
  | UploadCall
  | DeleteCall
  | RequestRestore
  | RewriteToStandard
deriving DecidableEq, Repr

/-- Model of the `record_file_access` SQL collaborator's row
(`FileAccessResult` in `src/models`): weekly count, lifetime count and
trailing-7-day count. -/
structure FileAccessResult where
  weekly_count : Int
  total_count : Int
  recent_7day_count : Int
deriving DecidableEq, Repr

/-- Effects performed by the detached access-recording / promotion task. -/
inductive TaskEffect where
  /-- the single `record_file_access` collaborator call -/
  | RecordAccessCall
  /-- a `storage.rewrite_to_standard(gcs_key)` call -/
  | RewriteCall
  /-- the SQL `UPDATE files SET storage_class = 'STANDARD',
  promoted_to_standard_at = now WHERE uuid = ..` statement -/
  | UpdateStandardCall
  /-- a `tracing::error!` log at the named site; the error goes no further -/
  | LogError (site : String)
deriving DecidableEq, Repr

/-- The promotion condition of `record_access_and_maybe_promote`
(`files_service.rs:87-88`): `recent_7day_count >= 3 &&
storage_class != Some("STANDARD")`. -/
def should_promote (recent_7day_count : Int) (storage_class : Option String) : Bool :=
  decide (3 ≤ recent_7day_count) && !(storage_class == some "STANDARD")

/-- Model of the spawned task body of
`FilesServiceImpl::record_access_and_maybe_promote`
(`files_service.rs:51-133`).  Outcomes of the three fallible collaborator
calls (`record_file_access`, `rewrite_to_standard`, and the `UPDATE files`
statement) are supplied as `Except` parameters; `storagePresent` models the
`if let Some(storage)` test on the cloned `Option` backend.  The task returns
only its effect trace: every failure becomes a `LogError` effect. -/
def record_access_and_maybe_promote
    (accessRes : Except String FileAccessResult)
    (storagePresent : Bool)
    (storage_class : Option String)
    (rewriteRes : Except String Unit)
    (updateRes : Except String Unit) : List TaskEffect :=
  TaskEffect.RecordAccessCall ::
    match accessRes with
    | Except.error _ => [TaskEffect.LogError "record_file_access"]
    | Except.ok result =>
      if should_promote result.recent_7day_count storage_class then
        if storagePresent then
          TaskEffect.RewriteCall ::
            match rewriteRes with
            | Except.ok _ =>
              TaskEffect.UpdateStandardCall ::
                match updateRes with
                | Except.ok _ => []
                | Except.error _ => [TaskEffect.LogError "update_storage_class"]
            | Except.error _ => [TaskEffect.LogError "rewrite_to_standard"]
        else []
      else []

/-- Outcome of the remote-storage branch of `download_file`: the backend calls
made, the caller-visible result (a stream of `FileChunk`s on success), and —
when a background task was spawned — the `storage_class` captured for it. -/
structure DownloadOutcome where
  calls : List StorageCall
  result : Except GrpcStatus (List FileChunk)
  taskClass : Option (Option String)
deriving Repr

/-- Model of the remote-storage branch of `FilesServiceImpl::download_file`
(`files_service.rs:436-479`), entered when a backend is configured and the
record has an `s3_key`.  The source calls `get_object_info`, then —
unconditionally, without inspecting `info.restore_status` — calls `download`,
spawns the access-recording task with `info.storage_class`, and streams the
chunked bytes.  Collaborator outcomes are supplied as `Except` parameters
(error payloads are the rendered backend errors). -/
def download_file_remote (infoRes : Except String ObjectInfo)
    (dlRes : Except String (List Nat)) : DownloadOutcome :=
  match infoRes with
  | Except.error e =>
    { calls := [StorageCall.GetObjectInfo]
      result := Except.error (GrpcStatus.internal ("Storage error: " ++ e))
      taskClass := none }
  | Except.ok info =>
    match dlRes with
    | Except.error e =>
      { calls := [StorageCall.GetObjectInfo, StorageCall.DownloadCall]
        result := Except.error (GrpcStatus.internal ("Storage download failed: " ++ e))
        taskClass := none }
    | Except.ok data =>
      { calls := [StorageCall.GetObjectInfo, StorageCall.DownloadCall]
        result := Except.ok (downloadChunks data)
        taskClass := some info.storage_class }

/-- The inline (`blob`) branch of `download_file` (`files_service.rs:482-503`):
the decoded blob bytes are streamed through the same chunking loop. -/
def download_file_inline (decodedBlob : List Nat) : List FileChunk :=
  downloadChunks decodedBlob

/-- Remote download together with its detached background task: the response is
computed by `download_file_remote` alone; the task (spawned only on download
success) receives the captured storage class and runs with its own collaborator
outcomes. -/
def download_with_task (infoRes : Except String ObjectInfo)
    (dlRes : Except String (List Nat))
    (accessRes : Except String FileAccessResult)
    (rewriteRes : Except String Unit)
    (updateRes : Except String Unit) : DownloadOutcome × List TaskEffect :=
  let d := download_file_remote infoRes dlRes
  (d,
    match d.taskClass with
    | none => []
    | some cls => record_access_and_maybe_promote accessRes true cls rewriteRes updateRes)

/-- Persistence/backend effects of `create_file`. -/
inductive CreateEffect where
  /-- backend `upload(key, data, content_type)` -/
  | UploadBytes (key : String)
  /-- the `INSERT INTO files (.., s3_key, storage_class, ..) VALUES (.., $6,
  'STANDARD', ..)` statement persisting a remote record -/
  | InsertRemote (key : String) (storage_class : String)
deriving DecidableEq, Repr

/-- Model of the backend branch of `FilesServiceImpl::create_file`
(`files_service.rs:164-232`): derive the key, upload the bytes, and only after
a successful upload run the `INSERT` that persists the remote record with
storage class `'STANDARD'`.  The result carries the persisted record's
`(s3_key, storage_class)` pair. -/
def create_file_backend (organization_id : String) (uuid : String)
    (uploadRes : Except String Unit) (insertRes : Except String Unit) :
    List CreateEffect × Except GrpcStatus (Option String × Option String) :=
  let gcs_key := generate_gcs_key organization_id uuid
  match uploadRes with
  | Except.error e =>
    ([CreateEffect.UploadBytes gcs_key],
     Except.error (GrpcStatus.internal ("GCS upload failed: " ++ e)))
  | Except.ok _ =>
    match insertRes with
    | Except.error e =>
      ([CreateEffect.UploadBytes gcs_key, CreateEffect.InsertRemote gcs_key "STANDARD"],
       Except.error (GrpcStatus.internal ("Database error: " ++ e)))
    | Except.ok _ =>
      ([CreateEffect.UploadBytes gcs_key, CreateEffect.InsertRemote gcs_key "STANDARD"],
       Except.ok (some gcs_key, some "STANDARD"))

/-- Model of a `files` table row as read and written by the files service
(`FileModel` plus the columns the SQL touches).  Timestamps are modelled as
`Int`. -/
structure FileRecord where
  uuid : String
  organization_id : String
  filename : String
  file_type : String
  created_at : Int
  deleted_at : Option Int
  blob : Option String
  s3_key : Option String
  storage_class : Option String
  last_accessed_at : Option Int
  access_count_weekly : Option Int
  access_count_total : Option Int
  promoted_to_standard_at : Option Int
deriving DecidableEq, Repr

/-- Model of `FilesServiceImpl::delete_file` (`files_service.rs:510-532`): the
single statement `UPDATE files SET deleted_at = $1 WHERE uuid = $2` applied to
the table, and no backend call at all. -/
def delete_file (now : Int) (uuid : String) (table : List FileRecord) :
    List StorageCall × List FileRecord :=
  ([], table.map (fun r => if r.uuid = uuid then { r with deleted_at := some now } else r))

/-- The row update performed by `delete_file` on a matching row. -/
def delete_file_row (now : Int) (uuid : String) (r : FileRecord) : FileRecord :=
  if r.uuid = uuid then { r with deleted_at := some now } else r

/-- Model of `FilesServiceImpl::list_files` (`files_service.rs:294-350`): both
queries filter on `deleted_at IS NULL`, the first additionally on `type = $1`
(the `ORDER BY created_at DESC` clause only permutes the rows and is not
modelled). -/
def list_files (type_filter : Option String) (table : List FileRecord) : List FileRecord :=
  match type_filter with
  | some t => table.filter (fun r => r.deleted_at.isNone && r.file_type == t)
  | none => table.filter (fun r => r.deleted_at.isNone)

/-- Model of `FilesServiceImpl::list_not_attached_files`
(`files_service.rs:534-571`): rows with `deleted_at IS NULL` and no matching
`car_inspection_files_a` row; the attachment join is abstracted as a predicate
on the row's uuid. -/
def list_not_attached_files (attached : String → Bool) (table : List FileRecord) :
    List FileRecord :=
  table.filter (fun r => r.deleted_at.isNone && !(attached r.uuid))

/-- Model of `FilesServiceImpl::list_recent_uploaded_files`
(`files_service.rs:573-609`): rows with `deleted_at IS NULL`, `LIMIT 50`
(ordering not modelled). -/
def list_recent_uploaded_files (table : List FileRecord) : List FileRecord :=
  (table.filter (fun r => r.deleted_at.isNone)).take 50

/-- The fixed message of `restore_file`'s success response. -/
def gcsAccessibleMsg : String :=
  "File is accessible immediately (GCS does not require restoration)"

/-- The `match info.restore_status` of `FilesServiceImpl::restore_file`
(`files_service.rs:660-667`): every arm — `NotNeeded` and the wildcard alike —
produces `("NOT_NEEDED", gcsAccessibleMsg)`. -/
def restore_status_response (rs : RestoreStatus) : String × String :=
  match rs with
  | RestoreStatus.NotNeeded => ("NOT_NEEDED", gcsAccessibleMsg)
  | _ => ("NOT_NEEDED", gcsAccessibleMsg)

/-- Model of the proto `RestoreFileResponse`. -/
structure RestoreFileResponse where
  uuid : String
  restore_status : String
  message : String
  storage_class : Option String
deriving DecidableEq, Repr

/-- Model of `FilesServiceImpl::restore_file` (`files_service.rs:612-675`)
after the storage-configured and `s3_key`-present guards: call
`get_object_info`, then answer from `restore_status_response`; no other
backend call is made. -/
def restore_file (uuid : String) (infoRes : Except String ObjectInfo) :
    List StorageCall × Except GrpcStatus RestoreFileResponse :=
  match infoRes with
  | Except.error e =>
    ([StorageCall.GetObjectInfo],
     Except.error (GrpcStatus.internal ("Storage error: " ++ e)))
  | Except.ok info =>
    ([StorageCall.GetObjectInfo],
     Except.ok
       { uuid := uuid
         restore_status := (restore_status_response info.restore_status).1
         message := (restore_status_response info.restore_status).2
         storage_class := info.storage_class })

/-! ### Lemmas about the chunking stage -/

theorem chunkSize_pos : 0 < chunkSize := by
  simp [chunkSize]

theorem chunksFuel_fuel_irrel :
    ∀ (n m : Nat) (l : List Nat), l.length ≤ n → l.length ≤ m →
      chunksFuel n l = chunksFuel m l := by
  intro n
  induction n with
  | zero =>
    intro m l hn _
    have hnil : l = [] := List.eq_nil_of_length_eq_zero (Nat.le_zero.mp hn)
    subst hnil
    cases m <;> rfl
  | succ n ih =>
    intro m l hn hm
    cases l with
    | nil => cases m <;> rfl
    | cons a t =>
      cases m with
      | zero => simp at hm
      | succ m =>
        simp only [chunksFuel]
        rw [ih m ((a :: t).drop chunkSize)
          (by simp [chunkSize] at hn ⊢; omega) (by simp [chunkSize] at hm ⊢; omega)]

theorem chunksExact_nil : chunksExact [] = [] := rfl

theorem chunksExact_cons (a : Nat) (l : List Nat) :
    chunksExact (a :: l) =
      ((a :: l).take chunkSize) :: chunksExact ((a :: l).drop chunkSize) := by
  show chunksFuel (l.length + 1) (a :: l) = _
  simp only [chunksFuel]
  rw [chunksExact,
    chunksFuel_fuel_irrel l.length ((a :: l).drop chunkSize).length ((a :: l).drop chunkSize)
      (by simp only [List.length_drop, List.length_cons, chunkSize]; omega) le_rfl]

theorem chunksExact_join_aux (n : Nat) :
    ∀ l : List Nat, l.length ≤ n → (chunksExact l).flatten = l := by
  induction n with
  | zero =>
    intro l hl
    have hnil : l = [] := List.eq_nil_of_length_eq_zero (Nat.le_zero.mp hl)
    subst hnil
    simp [chunksExact_nil]
  | succ n ih =>
    intro l hl
    cases l with
    | nil => simp [chunksExact_nil]
    | cons a t =>
      rw [chunksExact_cons, List.flatten_cons,
        ih ((a :: t).drop chunkSize) (by simp [chunkSize] at hl ⊢; omega),
        List.take_append_drop]

/-- Concatenating the chunks of a buffer reproduces the buffer. -/
theorem chunksExact_join (l : List Nat) : (chunksExact l).flatten = l :=
  chunksExact_join_aux l.length l le_rfl

theorem chunksExact_length_aux (n : Nat) :
    ∀ l : List Nat, l.length ≤ n →
      (chunksExact l).length = (l.length + chunkSize - 1) / chunkSize := by
  induction n with
  | zero =>
    intro l hl
    have hnil : l = [] := List.eq_nil_of_length_eq_zero (Nat.le_zero.mp hl)
    subst hnil
    simp [chunksExact_nil, chunkSize]
  | succ n ih =>
    intro l hl
    cases l with
    | nil => simp [chunksExact_nil, chunkSize]
    | cons a t =>
      rw [chunksExact_cons, List.length_cons,
        ih ((a :: t).drop chunkSize) (by simp [chunkSize] at hl ⊢; omega)]
      simp only [List.length_drop, List.length_cons, chunkSize]
      omega

/-- The number of chunks is the ceiling of the buffer length over `chunkSize`. -/
theorem chunksExact_length (l : List Nat) :
    (chunksExact l).length = (l.length + chunkSize - 1) / chunkSize :=
  chunksExact_length_aux l.length l le_rfl

theorem chunksExact_mem_aux (n : Nat) :
    ∀ l : List Nat, l.length ≤ n →
      ∀ c ∈ chunksExact l, c.length ≤ chunkSize ∧ c ≠ [] := by
  induction n with
  | zero =>
    intro l hl c hc
    have hnil : l = [] := List.eq_nil_of_length_eq_zero (Nat.le_zero.mp hl)
    subst hnil
    rw [chunksExact_nil] at hc
    simp at hc
  | succ n ih =>
    intro l hl c hc
    cases l with
    | nil => rw [chunksExact_nil] at hc; simp at hc
    | cons a t =>
      rw [chunksExact_cons] at hc
      rcases List.mem_cons.mp hc with h | h
      · subst h
        constructor
        · simp [List.length_take]
        · have hlen : 0 < ((a :: t).take chunkSize).length := by
            simp [List.length_take, chunkSize]
          exact List.ne_nil_of_length_pos hlen
      · exact ih ((a :: t).drop chunkSize) (by simp [chunkSize] at hl ⊢; omega) c h

/-- Every chunk is nonempty and at most `chunkSize` long. -/
theorem chunksExact_mem (l : List Nat) :
    ∀ c ∈ chunksExact l, c.length ≤ chunkSize ∧ c ≠ [] :=
  chunksExact_mem_aux l.length l le_rfl

/-- Sum of chunk lengths, as an `Int`. -/
def sumLenI : List (List Nat) → Int
  | [] => 0
  | c :: cs => (c.length : Int) + sumLenI cs

theorem sumLenI_eq_join_length (L : List (List Nat)) :
    sumLenI L = ((L.flatten).length : Int) := by
  induction L with
  | nil => simp [sumLenI]
  | cons c cs ih => simp [sumLenI, ih, List.flatten_cons]

theorem sumLenI_take_succ (L : List (List Nat)) :
    ∀ (i : Nat) (h : i < L.length),
      sumLenI (L.take (i + 1)) = sumLenI (L.take i) + ((L.get ⟨i, h⟩).length : Int) := by
  induction L with
  | nil => intro i h; simp at h
  | cons c cs ih =>
    intro i h
    cases i with
    | zero => simp [sumLenI]
    | succ i =>
      simp only [List.take_succ_cons, sumLenI, List.get_cons_succ]
      rw [ih i (by simpa using Nat.lt_of_succ_lt_succ h)]
      omega

theorem emit_chunks_length (t : Int) (cs : List (List Nat)) (off : Int) :
    (emit_chunks t cs off).length = cs.length := by
  induction cs generalizing off with
  | nil => rfl
  | cons c cs ih => simp [emit_chunks, ih]

theorem emit_chunks_map_data (t : Int) (cs : List (List Nat)) (off : Int) :
    (emit_chunks t cs off).map (fun f => f.data) = cs := by
  induction cs generalizing off with
  | nil => rfl
  | cons c cs ih => simp [emit_chunks, ih]

theorem emit_chunks_mem (t : Int) (cs : List (List Nat)) (off : Int) :
    ∀ f ∈ emit_chunks t cs off, f.data ∈ cs ∧ f.total_size = t := by
  induction cs generalizing off with
  | nil => intro f hf; simp [emit_chunks] at hf
  | cons c cs ih =>
    intro f hf
    rcases List.mem_cons.mp hf with h | h
    · subst h; exact ⟨List.mem_cons_self _ _, rfl⟩
    · rcases ih (off + (c.length : Int)) f h with ⟨h1, h2⟩
      exact ⟨List.mem_cons_of_mem _ h1, h2⟩

theorem emit_chunks_get? (t : Int) (cs : List (List Nat)) :
    ∀ (off : Int) (i : Nat),
      (emit_chunks t cs off).get? i =
        (cs.get? i).map
          (fun c => { data := c, offset := off + sumLenI (cs.take i), total_size := t }) := by
  induction cs with
  | nil => intro off i; simp [emit_chunks]
  | cons c cs ih =>
    intro off i
    cases i with
    | zero => simp [emit_chunks, sumLenI]
    | succ i =>
      simp only [emit_chunks, List.get?_cons_succ, List.take_succ_cons, sumLenI]
      rw [ih (off + (c.length : Int)) i]
      cases hc : cs.get? i with
      | none => simp
      | some c' =>
        simp only [Option.map_some']
        congr 1
        simp only [FileChunk.mk.injEq, true_and, and_true]
        omega

theorem downloadChunks_get? (data : List Nat) (i : Nat) :
    (downloadChunks data).get? i =
      ((chunksExact data).get? i).map
        (fun c =>
          { data := c, offset := sumLenI ((chunksExact data).take i),
            total_size := (data.length : Int) }) := by
  rw [downloadChunks, emit_chunks_get?]
  simp

theorem downloadChunks_length (data : List Nat) :
    (downloadChunks data).length = (chunksExact data).length := by
  rw [downloadChunks, emit_chunks_length]

theorem downloadChunks_get (data : List Nat) (i : Nat)
    (h : i < (downloadChunks data).length) :
    (downloadChunks data).get ⟨i, h⟩ =
      { data := (chunksExact data).get ⟨i, by rw [← downloadChunks_length]; exact h⟩,
        offset := sumLenI ((chunksExact data).take i),
        total_size := (data.length : Int) } := by
  have hlt : i < (chunksExact data).length := by rw [← downloadChunks_length]; exact h
  have h1 := downloadChunks_get? data i
  rw [List.get?_eq_get h, List.get?_eq_get hlt] at h1
  simpa using h1

theorem downloadChunks_offset (data : List Nat) (i : Nat)
    (h : i < (downloadChunks data).length) :
    ((downloadChunks data).get ⟨i, h⟩).offset = sumLenI ((chunksExact data).take i) := by
  rw [downloadChunks_get]

theorem downloadChunks_data_get (data : List Nat) (i : Nat)
    (h : i < (downloadChunks data).length) :
    ((downloadChunks data).get ⟨i, h⟩).data =
      (chunksExact data).get ⟨i, by rw [← downloadChunks_length]; exact h⟩ := by
  rw [downloadChunks_get]

/-! ### Claim theorems -/

/-- Claim C5: for every byte buffer of size N served by a download (the chunking
loop shared by the remote and the inline branch), the emitted chunk sequence
has exactly ceil(N / 65536) frames of at most 65536 bytes each; offsets start
at 0 and are strictly increasing and contiguous; every frame carries
`total_size = N`; concatenating the frames' data in offset order reproduces the
original buffer; and the final frame satisfies
`offset + data.length = total_size`. -/
theorem download_chunking_correct (data : List Nat) :
    ((downloadChunks data).length = (data.length + chunkSize - 1) / chunkSize)
    ∧ (∀ f ∈ downloadChunks data,
        f.data.length ≤ chunkSize ∧ f.total_size = (data.length : Int))
    ∧ (∀ h : 0 < (downloadChunks data).length,
        ((downloadChunks data).get ⟨0, h⟩).offset = 0)
    ∧ (∀ (i : Nat) (h : i + 1 < (downloadChunks data).length),
        ((downloadChunks data).get ⟨i + 1, h⟩).offset
            = ((downloadChunks data).get ⟨i, Nat.lt_of_succ_lt h⟩).offset
              + (((downloadChunks data).get ⟨i, Nat.lt_of_succ_lt h⟩).data.length : Int)
          ∧ ((downloadChunks data).get ⟨i, Nat.lt_of_succ_lt h⟩).offset
            < ((downloadChunks data).get ⟨i + 1, h⟩).offset)
    ∧ (((downloadChunks data).map (fun f => f.data)).flatten = data)
    ∧ (∀ h : downloadChunks data ≠ [],
        ((downloadChunks data).getLast h).offset
            + (((downloadChunks data).getLast h).data.length : Int)
          = (data.length : Int)) := by
  refine ⟨?_, ?_, ?_, ?_, ?_, ?_⟩
  · rw [downloadChunks_length, chunksExact_length]
  · intro f hf
    rcases emit_chunks_mem (data.length : Int) (chunksExact data) 0 f hf with ⟨h1, h2⟩
    exact ⟨(chunksExact_mem data f.data h1).1, h2⟩
  · intro h
    rw [downloadChunks_offset]
    simp [sumLenI]
  · intro i h
    have hi : i < (chunksExact data).length := by
      rw [← downloadChunks_length]; exact Nat.lt_of_succ_lt h
    have hoff := downloadChunks_offset data (i + 1) h
    have hoff' := downloadChunks_offset data i (Nat.lt_of_succ_lt h)
    have hdata := downloadChunks_data_get data i (Nat.lt_of_succ_lt h)
    have hstep := sumLenI_take_succ (chunksExact data) i hi
    have hpos : 0 < ((chunksExact data).get ⟨i, hi⟩).length := by
      have hmem := List.get_mem (chunksExact data) i hi
      have := (chunksExact_mem data _ hmem).2
      exact List.length_pos.mpr this
    constructor
    · rw [hoff, hoff', hdata, hstep]
    · rw [hoff, hoff', hstep]
      omega
  · rw [downloadChunks, emit_chunks_map_data, chunksExact_join]
  · intro h
    have hpos : 0 < (downloadChunks data).length := List.length_pos.mpr h
    have hlast : (downloadChunks data).getLast h =
        (downloadChunks data).get ⟨(downloadChunks data).length - 1, by omega⟩ :=
      List.getLast_eq_get _ h
    have hi : (downloadChunks data).length - 1 < (chunksExact data).length := by
      rw [← downloadChunks_length]; omega
    rw [hlast, downloadChunks_offset, downloadChunks_data_get,
      ← sumLenI_take_succ (chunksExact data) _ hi]
    have hn : (downloadChunks data).length - 1 + 1 = (chunksExact data).length := by
      rw [← downloadChunks_length]; omega
    rw [hn, List.take_length, sumLenI_eq_join_length, chunksExact_join]

/-- Claim C5 witness: the chunking invariants evaluated on the concrete
three-byte buffer `[10, 20, 30]` (one frame). -/
theorem download_chunking_correct_witness :
    (downloadChunks [10, 20, 30]).length = ([10, 20, 30].length + chunkSize - 1) / chunkSize
    ∧ (∀ h : 0 < (downloadChunks [10, 20, 30]).length,
        ((downloadChunks [10, 20, 30]).get ⟨0, h⟩).offset = 0)
    ∧ (((downloadChunks [10, 20, 30]).map (fun f => f.data)).flatten = [10, 20, 30])
    ∧ ((downloadChunks [10, 20, 30]).getLast (by decide)).offset
        + (((downloadChunks [10, 20, 30]).getLast (by decide)).data.length : Int)
      = ([10, 20, 30].length : Int) := by
  have h := download_chunking_correct [10, 20, 30]
  exact ⟨h.1, h.2.2.1, h.2.2.2.2.1, h.2.2.2.2.2 (by decide)⟩

/-- Claim C2: the restore status computed from `get_object_info` data is
`NotNeeded` whenever the storage class is not archival (GLACIER, DEEP_ARCHIVE,
GLACIER_IR); for archival classes it is `Required` when no restore marker is
present, `InProgress` when the marker indicates an ongoing restore,
`Completed` when the marker indicates a finished time-limited restoration, and
`Required` for any other marker content. -/
theorem parse_restore_status_classification (storage_class : Option String)
    (restore_header : Option String) :
    (isArchivalClass storage_class = false →
      parse_restore_status storage_class restore_header = RestoreStatus.NotNeeded)
    ∧ (isArchivalClass storage_class = true →
        restore_header = none →
        parse_restore_status storage_class restore_header = RestoreStatus.Required)
    ∧ (∀ header, isArchivalClass storage_class = true →
        restore_header = some header →
        strContains header ongoingTrueMarker = true →
        parse_restore_status storage_class restore_header = RestoreStatus.InProgress)
    ∧ (∀ header, isArchivalClass storage_class = true →
        restore_header = some header →
        strContains header ongoingTrueMarker = false →
        strContains header ongoingFalseMarker = true →
        parse_restore_status storage_class restore_header = RestoreStatus.Completed)
    ∧ (∀ header, isArchivalClass storage_class = true →
        restore_header = some header →
        strContains header ongoingTrueMarker = false →
        strContains header ongoingFalseMarker = false →
        parse_restore_status storage_class restore_header = RestoreStatus.Required) := by
  refine ⟨?_, ?_, ?_, ?_, ?_⟩
  · intro h; simp [parse_restore_status, h]
  · intro h hn; subst hn; simp [parse_restore_status, h]
  · intro header h hs ht; subst hs; simp [parse_restore_status, h, ht]
  · intro header h hs ht hf; subst hs; simp [parse_restore_status, h, ht, hf]
  · intro header h hs ht hf; subst hs; simp [parse_restore_status, h, ht, hf]

/-- Claim C2 witness: concrete evaluations — an archival class with an ongoing
marker classifies as `InProgress`, and a non-archival class as `NotNeeded`. -/
theorem parse_restore_status_classification_witness :
    parse_restore_status (some "GLACIER") (some "ongoing-request=\"true\"")
        = RestoreStatus.InProgress
    ∧ parse_restore_status (some "STANDARD") none = RestoreStatus.NotNeeded := by
  constructor
  · exact (parse_restore_status_classification (some "GLACIER")
      (some "ongoing-request=\"true\"")).2.2.1 "ongoing-request=\"true\"" (by decide) rfl
      (by decide)
  · exact (parse_restore_status_classification (some "STANDARD") none).1 (by decide)

/-- Claim C1 counterexample: with the backend reporting an archival object whose
restore state classifies as `InProgress`, `download_file` still performs the
byte fetch and returns the bytes — it does not fail with `RestoreInProgress`
and does not skip the transfer, contrary to the claim. -/
theorem download_restore_state_counterexample :
    (download_file_remote
        (Except.ok
          { storage_class := some "GLACIER", restore_status := RestoreStatus.InProgress,
            content_type := none, size := some 3 })
        (Except.ok [1, 2, 3])).result = Except.ok (downloadChunks [1, 2, 3])
    ∧ StorageCall.DownloadCall ∈
        (download_file_remote
          (Except.ok
            { storage_class := some "GLACIER", restore_status := RestoreStatus.InProgress,
              content_type := none, size := some 3 })
          (Except.ok [1, 2, 3])).calls := by
  exact ⟨rfl, by decide⟩

/-- Claim C1 (amended): for every download of a file whose bytes are held in a
configured backend, the bytes are fetched and returned regardless of the
object's classified restore state; the download never issues a restore request,
and it fails only when the backend info or download call itself fails (with an
internal storage error, never a restore-specific one). -/
theorem download_fetches_regardless_of_restore_state (info : ObjectInfo) (data : List Nat) :
    download_file_remote (Except.ok info) (Except.ok data)
        = { calls := [StorageCall.GetObjectInfo, StorageCall.DownloadCall],
            result := Except.ok (downloadChunks data),
            taskClass := some info.storage_class }
    ∧ (∀ infoRes dlRes,
        StorageCall.RequestRestore ∉ (download_file_remote infoRes dlRes).calls)
    ∧ (∀ infoRes dlRes,
        (∃ frames, (download_file_remote infoRes dlRes).result = Except.ok frames)
        ∨ (∃ m, (download_file_remote infoRes dlRes).result
            = Except.error (GrpcStatus.internal m))) := by
  refine ⟨rfl, ?_, ?_⟩
  · intro infoRes dlRes
    cases infoRes with
    | error e => simp [download_file_remote]
    | ok i =>
      cases dlRes with
      | error e => simp [download_file_remote]
      | ok d => simp [download_file_remote]
  · intro infoRes dlRes
    cases infoRes with
    | error e => exact Or.inr ⟨_, rfl⟩
    | ok i =>
      cases dlRes with
      | error e => exact Or.inr ⟨_, rfl⟩
      | ok d => exact Or.inl ⟨_, rfl⟩

/-- Claim C3 (code bug): when a second restore request is rejected by the
backend with `RestoreAlreadyInProgress`, `request_restore` does NOT treat it as
success — the `map_err(..)?` propagates `AppError::RestoreInProgress` as an
error to the caller, contradicting the claim and the source's own comment
("既に復元リクエスト済みの場合はエラーにしない", storage/mod.rs:142). -/
theorem request_restore_second_call_errors :
    request_restore
        (Except.error
          "service error: RestoreAlreadyInProgress: Object restore is already in progress")
      = Except.error AppError.RestoreInProgress
    ∧ ∀ u : Unit,
        request_restore
            (Except.error
              "service error: RestoreAlreadyInProgress: Object restore is already in progress")
          ≠ Except.ok u := by
  constructor
  · rfl
  · intro u h
    cases h

theorem should_promote_iff (r : Int) (cls : Option String) :
    should_promote r cls = true ↔ 3 ≤ r ∧ cls ≠ some "STANDARD" := by
  simp [should_promote]

/-- Claim C4: the detached task records the access via a single collaborator
call; whenever the returned trailing-7-day count reaches 3 and the current
storage class is not already `STANDARD`, `rewrite_to_standard` is called
exactly once for that download, and on its success the record update setting
`storage_class = 'STANDARD'` and the promotion timestamp is executed; below the
threshold (or already at `STANDARD`) no rewrite happens. -/
theorem record_access_promotion (result : FileAccessResult) (cls : Option String)
    (rewriteRes updateRes : Except String Unit) :
    (∀ accessRes : Except String FileAccessResult,
        (record_access_and_maybe_promote accessRes true cls rewriteRes updateRes).count
            TaskEffect.RecordAccessCall = 1)
    ∧ (3 ≤ result.recent_7day_count → cls ≠ some "STANDARD" →
        (record_access_and_maybe_promote (Except.ok result) true cls rewriteRes
              updateRes).count TaskEffect.RewriteCall = 1
        ∧ (rewriteRes = Except.ok () →
            TaskEffect.UpdateStandardCall ∈
              record_access_and_maybe_promote (Except.ok result) true cls rewriteRes updateRes))
    ∧ (¬(3 ≤ result.recent_7day_count) ∨ cls = some "STANDARD" →
        TaskEffect.RewriteCall ∉
          record_access_and_maybe_promote (Except.ok result) true cls rewriteRes updateRes) := by
  refine ⟨?_, ?_, ?_⟩
  · intro accessRes
    cases accessRes with
    | error e => rfl
    | ok res =>
      by_cases hp : should_promote res.recent_7day_count cls = true
      · cases rewriteRes with
        | error e => simp [record_access_and_maybe_promote, hp]
        | ok v =>
          cases updateRes with
          | error e => simp [record_access_and_maybe_promote, hp]
          | ok w => simp [record_access_and_maybe_promote, hp]
      · have hp' : should_promote res.recent_7day_count cls = false := by
          simpa using hp
        simp [record_access_and_maybe_promote, hp']
  · intro h3 hcls
    have hp : should_promote result.recent_7day_count cls = true :=
      (should_promote_iff _ _).mpr ⟨h3, hcls⟩
    constructor
    · cases rewriteRes with
      | error e => simp [record_access_and_maybe_promote, hp]
      | ok v =>
        cases updateRes with
        | error e => simp [record_access_and_maybe_promote, hp]
        | ok w => simp [record_access_and_maybe_promote, hp]
    · intro hok
      subst hok
      cases updateRes with
      | error e => simp [record_access_and_maybe_promote, hp]
      | ok w => simp [record_access_and_maybe_promote, hp]
  · intro hno
    have hp : should_promote result.recent_7day_count cls = false := by
      rcases hno with h | h
      · simp [should_promote]; intro h3; exact absurd h3 h
      · simp [should_promote, h]
    simp [record_access_and_maybe_promote, hp]

/-- Claim C4 witness: with a trailing-7-day count of exactly 3 on a
non-`STANDARD` object and all collaborators succeeding, the task performs
exactly one rewrite and executes the `STANDARD`-plus-timestamp update. -/
theorem record_access_promotion_witness :
    (record_access_and_maybe_promote
          (Except.ok { weekly_count := 1, total_count := 5, recent_7day_count := 3 }) true
          (some "NEARLINE") (Except.ok ()) (Except.ok ())).count TaskEffect.RewriteCall = 1
    ∧ TaskEffect.UpdateStandardCall ∈
        record_access_and_maybe_promote
          (Except.ok { weekly_count := 1, total_count := 5, recent_7day_count := 3 }) true
          (some "NEARLINE") (Except.ok ()) (Except.ok ()) := by
  have h := record_access_promotion
    { weekly_count := 1, total_count := 5, recent_7day_count := 3 }
    (some "NEARLINE") (Except.ok ()) (Except.ok ())
  have h2 := h.2.1 (by decide) (by decide)
  exact ⟨h2.1, h2.2 rfl⟩

theorem append_slash_inj :
    ∀ (a c : List Char) (b d : List Char), '/' ∉ a → '/' ∉ c →
      a ++ '/' :: b = c ++ '/' :: d → a = c ∧ b = d := by
  intro a
  induction a with
  | nil =>
    intro c b d _ hc h
    cases c with
    | nil => simpa using h
    | cons y cs =>
      simp only [List.nil_append, List.cons_append, List.cons.injEq] at h
      exact absurd (h.1 ▸ List.mem_cons_self y cs) (h.1 ▸ hc)
  | cons x xs ih =>
    intro c b d ha hc h
    cases c with
    | nil =>
      simp only [List.nil_append, List.cons_append, List.cons.injEq] at h
      exact absurd (h.1 ▸ List.mem_cons_self x xs) (h.1 ▸ ha)
    | cons y cs =>
      simp only [List.cons_append, List.cons.injEq] at h
      have ha' : '/' ∉ xs := fun hm => ha (List.mem_cons_of_mem x hm)
      have hc' : '/' ∉ cs := fun hm => hc (List.mem_cons_of_mem y hm)
      rcases ih cs b d ha' hc' h.2 with ⟨h1, h2⟩
      exact ⟨by rw [h.1, h1], h2⟩

theorem generate_gcs_key_data (o u : String) :
    (generate_gcs_key o u).data = o.data ++ '/' :: u.data := by
  simp [generate_gcs_key]

/-- Claim C6: the key persisted on a backend-created record is
`organization_id ++ "/" ++ uuid`; and since organization identifiers contain no
slash, two creations under different organizations never derive the same key
(even for identical content, which the key does not depend on). -/
theorem gcs_key_tenant_separation (o₁ u₁ o₂ u₂ : String)
    (h₁ : '/' ∉ o₁.data) (h₂ : '/' ∉ o₂.data) (hne : o₁ ≠ o₂) :
    ((create_file_backend o₁ u₁ (Except.ok ()) (Except.ok ())).2
        = Except.ok (some (generate_gcs_key o₁ u₁), some "STANDARD"))
    ∧ generate_gcs_key o₁ u₁ ≠ generate_gcs_key o₂ u₂ := by
  refine ⟨rfl, ?_⟩
  intro heq
  have hdata := congrArg String.data heq
  rw [generate_gcs_key_data, generate_gcs_key_data] at hdata
  have := (append_slash_inj o₁.data o₂.data u₁.data u₂.data h₁ h₂ hdata).1
  exact hne (String.ext this)

/-- Claim C6 witness: two distinct slash-free organizations with the very same
uuid derive distinct keys, and the persisted key is the derived one. -/
theorem gcs_key_tenant_separation_witness :
    ((create_file_backend "org-a" "same-uuid" (Except.ok ()) (Except.ok ())).2
        = Except.ok (some (generate_gcs_key "org-a" "same-uuid"), some "STANDARD"))
    ∧ generate_gcs_key "org-a" "same-uuid" ≠ generate_gcs_key "org-b" "same-uuid" :=
  gcs_key_tenant_separation "org-a" "same-uuid" "org-b" "same-uuid"
    (by decide) (by decide) (by decide)

/-- Claim C7: the backend branch of `create_file` uploads the bytes under the
derived key first and persists the `Remote` record (with the default hot-tier
class `STANDARD`) only after the upload has succeeded; when the upload fails
the create fails and no insert is performed. -/
theorem create_upload_before_persist (o u : String) :
    (∀ (e : String) (ins : Except String Unit),
        create_file_backend o u (Except.error e) ins
          = ([CreateEffect.UploadBytes (generate_gcs_key o u)],
             Except.error (GrpcStatus.internal ("GCS upload failed: " ++ e))))
    ∧ (∀ (e : String) (ins : Except String Unit) (k sc : String),
        CreateEffect.InsertRemote k sc ∉ (create_file_backend o u (Except.error e) ins).1)
    ∧ (∀ ins : Except String Unit,
        (create_file_backend o u (Except.ok ()) ins).1
          = [CreateEffect.UploadBytes (generate_gcs_key o u),
             CreateEffect.InsertRemote (generate_gcs_key o u) "STANDARD"])
    ∧ ((create_file_backend o u (Except.ok ()) (Except.ok ())).2
        = Except.ok (some (generate_gcs_key o u), some "STANDARD")) := by
  refine ⟨fun e ins => rfl, ?_, ?_, rfl⟩
  · intro e ins k sc hmem
    simp [create_file_backend] at hmem
  · intro ins
    cases ins <;> rfl

/-- Claim C8: `delete_file` makes no backend call and its table update touches
only `deleted_at` — every other column of every row is unchanged; and each of
the three listing operations filters on `deleted_at IS NULL`, so a listed row
always has `deleted_at = none`. -/
theorem delete_soft_and_listings_exclude_deleted (now : Int) (uuid : String)
    (table : List FileRecord) :
    ((delete_file now uuid table).1 = [])
    ∧ ((delete_file now uuid table).2 = table.map (delete_file_row now uuid))
    ∧ (∀ r : FileRecord,
        (delete_file_row now uuid r).uuid = r.uuid
        ∧ (delete_file_row now uuid r).organization_id = r.organization_id
        ∧ (delete_file_row now uuid r).filename = r.filename
        ∧ (delete_file_row now uuid r).file_type = r.file_type
        ∧ (delete_file_row now uuid r).created_at = r.created_at
        ∧ (delete_file_row now uuid r).blob = r.blob
        ∧ (delete_file_row now uuid r).s3_key = r.s3_key
        ∧ (delete_file_row now uuid r).storage_class = r.storage_class
        ∧ (delete_file_row now uuid r).last_accessed_at = r.last_accessed_at
        ∧ (delete_file_row now uuid r).access_count_weekly = r.access_count_weekly
        ∧ (delete_file_row now uuid r).access_count_total = r.access_count_total
        ∧ (delete_file_row now uuid r).promoted_to_standard_at = r.promoted_to_standard_at)
    ∧ (∀ (tf : Option String) (r : FileRecord),
        r ∈ list_files tf table → r.deleted_at = none)
    ∧ (∀ (p : String → Bool) (r : FileRecord),
        r ∈ list_not_attached_files p table → r.deleted_at = none)
    ∧ (∀ r : FileRecord, r ∈ list_recent_uploaded_files table → r.deleted_at = none) := by
  refine ⟨rfl, rfl, ?_, ?_, ?_, ?_⟩
  · intro r
    by_cases h : r.uuid = uuid <;> simp [delete_file_row, h]
  · intro tf r hr
    cases tf with
    | none =>
      have := (List.mem_filter.mp hr).2
      simpa [Option.isNone_iff_eq_none] using this
    | some t =>
      have := (List.mem_filter.mp hr).2
      simp only [Bool.and_eq_true, Option.isNone_iff_eq_none] at this
      exact this.1
  · intro p r hr
    have := (List.mem_filter.mp hr).2
    simp only [Bool.and_eq_true, Option.isNone_iff_eq_none] at this
    exact this.1
  · intro r hr
    have hr' : r ∈ table.filter (fun r => r.deleted_at.isNone) :=
      List.mem_of_mem_take hr
    have := (List.mem_filter.mp hr').2
    simpa [Option.isNone_iff_eq_none] using this

/-- Claim C8 witness: on a two-row table (one live, one soft-deleted), the
delete emits no backend call, preserves the live row's non-`deleted_at` fields,
and the live row produced by each listing has `deleted_at = none`. -/
theorem delete_soft_and_listings_witness :
    ((delete_file 5 "u1"
        [{ uuid := "u1", organization_id := "o1", filename := "a.txt",
           file_type := "text/plain", created_at := 0, deleted_at := none,
           blob := none, s3_key := some "o1/u1", storage_class := some "STANDARD",
           last_accessed_at := none, access_count_weekly := none,
           access_count_total := none, promoted_to_standard_at := none }]).1 = [])
    ∧ ({ uuid := "u1", organization_id := "o1", filename := "a.txt",
         file_type := "text/plain", created_at := 0, deleted_at := none,
         blob := none, s3_key := some "o1/u1", storage_class := some "STANDARD",
         last_accessed_at := none, access_count_weekly := none,
         access_count_total := none, promoted_to_standard_at := none } : FileRecord).deleted_at
        = none := by
  have h := delete_soft_and_listings_exclude_deleted 5 "u1"
    [{ uuid := "u1", organization_id := "o1", filename := "a.txt",
       file_type := "text/plain", created_at := 0, deleted_at := none,
       blob := none, s3_key := some "o1/u1", storage_class := some "STANDARD",
       last_accessed_at := none, access_count_weekly := none,
       access_count_total := none, promoted_to_standard_at := none }]
  refine ⟨h.1, ?_⟩
  exact h.2.2.2.1 none _ (by decide)

/-- Claim C9: the caller-visible outcome of a download (result and backend
calls) is identical for any outcomes of the detached access-recording /
promotion work — failures there are logged effects only and never reach the
caller; in particular a failed `record_file_access` call just leaves a log
entry in the task trace. -/
theorem background_failures_never_surface
    (infoRes : Except String ObjectInfo) (dlRes : Except String (List Nat))
    (a a' : Except String FileAccessResult) (r r' u u' : Except String Unit) :
    ((download_with_task infoRes dlRes a r u).1.result
        = (download_with_task infoRes dlRes a' r' u').1.result
      ∧ (download_with_task infoRes dlRes a r u).1.calls
        = (download_with_task infoRes dlRes a' r' u').1.calls)
    ∧ (∀ (cls : Option String) (e : String),
        record_access_and_maybe_promote (Except.error e) true cls r u
          = [TaskEffect.RecordAccessCall, TaskEffect.LogError "record_file_access"]) :=
  ⟨⟨rfl, rfl⟩, fun _ _ => rfl⟩

/-- Claim C10: whenever `restore_file` succeeds it answers with restore status
`NOT_NEEDED` and the same fixed message, regardless of the restore status
`get_object_info` reported; `IN_PROGRESS`, `COMPLETED` and `REQUESTED` are
never produced, and the operation never issues a restore request. -/
theorem restore_file_always_not_needed (uuid : String) (info : ObjectInfo) :
    restore_file uuid (Except.ok info)
        = ([StorageCall.GetObjectInfo],
           Except.ok
             { uuid := uuid, restore_status := "NOT_NEEDED",
               message := gcsAccessibleMsg, storage_class := info.storage_class })
    ∧ (∀ rs : RestoreStatus, restore_status_response rs = ("NOT_NEEDED", gcsAccessibleMsg))
    ∧ (∀ rs : RestoreStatus,
        (restore_status_response rs).1 ≠ "IN_PROGRESS"
        ∧ (restore_status_response rs).1 ≠ "COMPLETED"
        ∧ (restore_status_response rs).1 ≠ "REQUESTED")
    ∧ (∀ infoRes : Except String ObjectInfo,
        StorageCall.RequestRestore ∉ (restore_file uuid infoRes).1) := by
  refine ⟨?_, ?_, ?_, ?_⟩
  · obtain ⟨sc, rs, ct, sz⟩ := info
    cases rs <;> rfl
  · intro rs; cases rs <;> rfl
  · intro rs; cases rs <;> refine ⟨by decide, by decide, by decide⟩
  · intro infoRes
    cases infoRes <;> simp [restore_file]

end RustLogi
